import Mathlib

/-!
# Verification of the Kolynia value-transfer scripts

Shallow embedding of the repository's transfer-and-verification scripts:

* `scripts/send_usdc_and_verify.py` — ERC-20 transfer flow (`parse_amount`,
  `format_amount`, and the `main` orchestration with its exit codes);
* `scripts/evm_test_usdc.py` — `parse_token_amount` / `format_token_amount`
  (semantically identical to the pair above) and its send path;
* `scripts/send_solana_and_verify.py` — the SOL / SPL conversion
  `int(float(amount_str) * 10**decimals)`, which goes through IEEE-754
  binary64 arithmetic;
* `scripts/run_demo_with_mock.py` and `scripts/one_click_test.py` — the two
  balanced-brace JSON extractors;
* `scripts/mock_facilitator.py` — the FastAPI mock payment endpoints.

Python's `decimal.Decimal` is modelled exactly (literal parsing, exact
multiplication/division, the `to-scientific-string` printing rule with
trailing-zero reduction to the ideal exponent).  The model is exact
arithmetic; the default decimal context carries 28 significant digits, so
theorems that depend on no context rounding occurring carry explicit size
hypotheses keeping every intermediate coefficient within 28 digits.
-/

set_option maxRecDepth 20000

namespace Kolynia

/-! ## Digit characters -/

/-- The ten ASCII digit characters. -/
def digitChars : List Char := ['0', '1', '2', '3', '4', '5', '6', '7', '8', '9']

/-- A character is a decimal digit. -/
def isDigit (c : Char) : Bool := c ∈ digitChars

/-- Numeric value of a digit character. -/
def digitVal (c : Char) : Nat := c.toNat - 48

/-- Digit character of a value `< 10`. -/
def digitChar (v : Nat) : Char := digitChars.getD v '0'

/-- The number denoted by a big-endian digit string (as Python's
`int`/`Decimal` coefficient reading does). -/
def natOfDigits (l : List Char) : Nat := l.foldl (fun a c => 10 * a + digitVal c) 0

/-- Little-endian base-10 digits of `n`, with explicit fuel so that the
kernel can evaluate it (`fuel ≥ n` suffices). -/
def digitsRevAux : Nat → Nat → List Nat
  | 0, _ => []
  | fuel + 1, n => if n = 0 then [] else n % 10 :: digitsRevAux fuel (n / 10)

/-- Little-endian base-10 digits of `n`. -/
def digitsRev (n : Nat) : List Nat := digitsRevAux n n

/-- Big-endian digit string of a natural number (nonempty only for `n ≠ 0`). -/
def digitsBE (n : Nat) : List Char := (digitsRev n).reverse.map digitChar

/-! ## Decimal literals

`decimal.Decimal(s)` accepts an optional sign, an integer digit part and an
optional fractional digit part (we model this sign/int/frac fragment of the
grammar; exponent forms never occur on the scripts' inputs of interest).
`Decimal("1.50")` keeps coefficient `150` and fractional length 2 exactly. -/

/-- A parsed decimal literal: sign, integer-part digits, fraction digits. -/
structure DecLit where
  neg : Bool
  ip : List Char
  fp : List Char
  deriving Repr, DecidableEq

/-- Strip a leading sign character, as `Decimal` literal parsing does. -/
def splitSign (l : List Char) : Bool × List Char :=
  match l with
  | '-' :: r => (true, r)
  | '+' :: r => (false, r)
  | r => (false, r)

/-- Parse a decimal literal of the form `[sign] digits [. digits]`
(at least one digit overall), the fragment of `Decimal`'s literal grammar
exercised by the scripts.  Returns `none` for anything else (on which
`Decimal(s)` raises `InvalidOperation`). -/
def splitLit (l : List Char) : Option DecLit :=
  let sr := splitSign l
  let ip := sr.2.takeWhile isDigit
  match sr.2.dropWhile isDigit with
  | [] => if ip.isEmpty then none else some ⟨sr.1, ip, []⟩
  | '.' :: fp =>
      if fp.all isDigit && !(ip.isEmpty && fp.isEmpty) then some ⟨sr.1, ip, fp⟩
      else none
  | _ => none

/-- Rational magnitude of a literal, as a scaled pair: the value is
`coeff L / 10 ^ scale L`. -/
def coeff (L : DecLit) : Nat := natOfDigits (L.ip ++ L.fp)

/-- Number of fractional digits of a literal. -/
def scale (L : DecLit) : Nat := L.fp.length

/-! ## `parse_amount` (send_usdc_and_verify.py) and
`parse_token_amount` (evm_test_usdc.py)

Source:
```
def parse_amount(amount_str: str, decimals: int) -> int:
    d = Decimal(amount_str)
    raw = int(d * (Decimal(10) ** decimals))
    return raw
```
`Decimal(amount_str) * 10**decimals` is exact for coefficients within the
28-digit context precision; `int(...)` truncates toward zero. -/

/-- `parse_amount` on a character list; `none` models the uncaught
`InvalidOperation` raised by `Decimal` on a malformed literal. -/
def parse_amount (s : List Char) (decimals : Nat) : Option Int :=
  (splitLit s).map fun L =>
    let mag : Nat := coeff L * 10 ^ decimals / 10 ^ scale L
    if L.neg then -(mag : Int) else (mag : Int)

/-! ## `format_amount` / `format_token_amount`

Source:
```
def format_amount(raw: int, decimals: int) -> Decimal:
    return Decimal(raw) / (Decimal(10) ** decimals)
```
The quotient is exact; an exact `Decimal` quotient is reduced (trailing
zeros removed) no further than the ideal exponent `0 - 0 = 0`, and printing
follows the `to-scientific-string` rule: plain notation when the exponent
is `≤ 0` and the adjusted exponent is `≥ -6`, scientific notation
otherwise. -/

/-- Strip up to `fuel` trailing zero digits from `raw`, returning the
reduced coefficient and the number of zeros stripped.  `fuel` is the
distance to the ideal exponent, so reduction stops there. -/
def stripZeros : Nat → Nat → Nat × Nat
  | raw, 0 => (raw, 0)
  | raw, fuel + 1 =>
      if raw % 10 = 0 then
        let p := stripZeros (raw / 10) fuel
        (p.1, p.2 + 1)
      else (raw, 0)

/-- Python's `str` on a positive `Decimal` with coefficient `c > 0` and
exponent `-eNeg ≤ 0`: the `to-scientific-string` rule. -/
def toSciString (c : Nat) (eNeg : Nat) : List Char :=
  let ds := digitsBE c
  if eNeg = 0 then ds
  else if eNeg < ds.length then
    ds.take (ds.length - eNeg) ++ '.' :: ds.drop (ds.length - eNeg)
  else if eNeg ≤ ds.length + 5 then
    '0' :: '.' :: (List.replicate (eNeg - ds.length) '0' ++ ds)
  else
    match ds with
    | [] => []
    | d1 :: rest =>
        d1 :: (if rest.isEmpty then [] else '.' :: rest)
          ++ 'E' :: '-' :: digitsBE (eNeg + 1 - ds.length)

/-- `str(Decimal(raw) / Decimal(10)**decimals)` for `raw ≥ 0` (exact
quotient, reduced to the ideal exponent, then `to-scientific-string`). -/
def formatNat (raw decimals : Nat) : List Char :=
  if raw = 0 then ['0']
  else
    let p := stripZeros raw decimals
    toSciString p.1 (decimals - p.2)

/-- `format_amount` on integers (negative values print a leading minus). -/
def format_amount (raw : Int) (decimals : Nat) : List Char :=
  if raw < 0 then '-' :: formatNat raw.natAbs decimals
  else formatNat raw.toNat decimals

example : parse_amount "0.129".toList 2 = some 12 := by decide
example : parse_amount "-0.129".toList 2 = some (-12) := by decide
example : parse_amount "1.5".toList 6 = some 1500000 := by decide
example : parse_amount "0".toList 6 = some 0 := by decide
example : format_amount 1500000 6 = "1.5".toList := by decide
example : format_amount 1 9 = "1E-9".toList := by decide
example : format_amount 100 7 = "0.00001".toList := by decide
example : format_amount 12 9 = "1.2E-8".toList := by decide
example : format_amount 0 9 = "0".toList := by decide
example : format_amount 12 2 = "0.12".toList := by decide
example : format_amount 200 1 = "20".toList := by decide

/-! ## IEEE-754 binary64 model (send_solana_and_verify.py)

The Solana script converts the human amount with binary floating point:
```
lamports = int(float(amount_str) * 1e9)                       # native SOL
raw_amount = int(float(amount_str) * (10 ** decimals))        # SPL token
```
CPython floats are IEEE-754 binary64 with round-to-nearest, ties-to-even;
`float(s)` is the correctly rounded value of the decimal literal, `*` is
correctly rounded, and `int(x)` truncates toward zero.  We model a
non-negative double by its exact rational value `num / den` (`den` a power
of two) and implement correct rounding with exact integer arithmetic.
The model covers the normal finite range, which contains every value
arising on this path. -/

/-- A non-negative binary64 value, represented exactly as `num / den`
with `den` a power of two. -/
structure DV where
  num : Nat
  den : Nat
  deriving Repr, DecidableEq

/-- Scale `n / d` by powers of two until the quotient lies in
`[2^52, 2^53)`, returning the scaled pair together with the binary
exponent.  `fuel = 1200` covers the whole finite double range. -/
def normLoop : Nat → Nat → Nat → Int → Nat × Nat × Int
  | 0, n, d, e => (n, d, e)
  | fuel + 1, n, d, e =>
      if n < 2 ^ 52 * d then normLoop fuel (2 * n) d (e - 1)
      else if 2 ^ 53 * d ≤ n then normLoop fuel n (2 * d) (e + 1)
      else (n, d, e)

/-- Round `n / d` to the nearest integer, ties to even. -/
def rne (n d : Nat) : Nat :=
  let q := n / d
  let r := n % d
  if 2 * r < d then q
  else if d < 2 * r then q + 1
  else if q % 2 = 0 then q else q + 1

/-- Exact value `m * 2 ^ e` as a `DV`. -/
def dvOfScaled (m : Nat) (e : Int) : DV :=
  if 0 ≤ e then ⟨m * 2 ^ e.toNat, 1⟩ else ⟨m, 2 ^ (-e).toNat⟩

/-- Round the non-negative rational `a / b` (`b > 0`) to the nearest
binary64 value (round-to-nearest, ties-to-even). -/
def roundDub (a b : Nat) : DV :=
  if a = 0 then ⟨0, 1⟩
  else
    let nde := normLoop 1200 a b 0
    dvOfScaled (rne nde.1 nde.2.1) nde.2.2

/-- Correctly rounded binary64 product. -/
def mulDub (x y : DV) : DV := roundDub (x.num * y.num) (x.den * y.den)

/-- `int(x)` on a non-negative double: truncation. -/
def truncDub (x : DV) : Nat := x.num / x.den

/-- `float(s)` for a non-negative parsed literal. -/
def floatOfLit (L : DecLit) : DV := roundDub (coeff L) (10 ^ scale L)

/-- `int(float(amount_str) * (10 ** decimals))`, the Solana script's
human-to-raw conversion (`decimals = 9` with the `1e9` literal on the
native-SOL path, the mint's decimals on the SPL path).  `none` models the
uncaught `ValueError` on a malformed literal; the scripts only ever reach
this with non-negative amounts, and a leading minus is out of the modelled
range. -/
def solana_raw_amount (s : List Char) (decimals : Nat) : Option Nat :=
  (splitLit s).bind fun L =>
    if L.neg then none
    else some (truncDub (mulDub (floatOfLit L) (roundDub (10 ^ decimals) 1)))

example : solana_raw_amount "0.0157".toList 9 = some 15699999 := by decide
example : solana_raw_amount "0.0157".toList 6 = some 15699 := by decide
example : solana_raw_amount "0.01".toList 9 = some 10000000 := by decide
example : solana_raw_amount "1".toList 9 = some 1000000000 := by decide
example : solana_raw_amount "0".toList 9 = some 0 := by decide

/-! ## Balanced-brace JSON extractors

Two implementations exist in the repository.  `run_demo_with_mock.py`
tracks a stack of opening braces (`brace_stack`, holding only `'{'`, so we
model it by its length):
```
for i, ch in enumerate(text):
    if ch == '{':
        if not brace_stack: start_idx = i
        brace_stack.append('{')
    elif ch == '}':
        if brace_stack:
            brace_stack.pop()
            if not brace_stack and start_idx is not None:
                candidate = text[start_idx:i+1]
                try: objs.append(json.loads(candidate))
                except Exception: pass
                start_idx = None
```
`one_click_test.py` tracks a plain integer counter that can go negative:
```
if ch == '{':
    if brace == 0: start_idx = i
    brace += 1
elif ch == '}':
    brace -= 1
    if brace == 0 and start_idx is not None:
        chunk = text[start_idx:i+1]
        try: objs.append(json.loads(chunk))
        except Exception: pass
        start_idx = None
```
`json.loads` is an external collaborator and is abstracted as the `parse`
parameter; instantiating `parse` with `some` yields the raw candidate
slices themselves. -/

/-- Scanner state shared by both extractors: the brace depth, the start
index of the current candidate, and the objects collected so far. -/
structure ScanState (J : Type) where
  depth : Int
  start : Option Nat
  objs : List J

/-- The Python slice `text[j:i+1]`. -/
def slice (text : List Char) (j i : Nat) : List Char :=
  (text.drop j).take (i + 1 - j)

/-- One step of `run_demo_with_mock.extract_json_objects` at index `i`.
`depth` is the length of `brace_stack` (which only ever holds `'{'`). -/
def stepRD (parse : List Char → Option J) (text : List Char)
    (s : ScanState J) (i : Nat) (ch : Char) : ScanState J :=
  if ch = '{' then
    { s with start := if s.depth = 0 then some i else s.start, depth := s.depth + 1 }
  else if ch = '}' then
    if s.depth ≠ 0 then
      let d := s.depth - 1
      if d = 0 then
        match s.start with
        | some j =>
            { depth := d, start := none,
              objs := match parse (slice text j i) with
                      | some o => s.objs ++ [o]
                      | none => s.objs }
        | none => { s with depth := d }
      else { s with depth := d }
    else s
  else s

/-- One step of `one_click_test.extract_json_objects` at index `i`;
the counter decrements unconditionally on `'}'` and may go negative. -/
def stepOC (parse : List Char → Option J) (text : List Char)
    (s : ScanState J) (i : Nat) (ch : Char) : ScanState J :=
  if ch = '{' then
    { s with start := if s.depth = 0 then some i else s.start, depth := s.depth + 1 }
  else if ch = '}' then
    let d := s.depth - 1
    if d = 0 then
      match s.start with
      | some j =>
          { depth := d, start := none,
            objs := match parse (slice text j i) with
                    | some o => s.objs ++ [o]
                    | none => s.objs }
      | none => { s with depth := d }
    else { s with depth := d }
  else s

/-- Run a scanner step function over the cursor list, tracking the index. -/
def scanAux (step : ScanState J → Nat → Char → ScanState J) :
    List Char → Nat → ScanState J → ScanState J
  | [], _, s => s
  | c :: rest, i, s => scanAux step rest (i + 1) (step s i c)

/-- `extract_json_objects` of run_demo_with_mock.py. -/
def extractRD (parse : List Char → Option J) (text : List Char) : List J :=
  (scanAux (stepRD parse text) text 0 ⟨0, none, []⟩).objs

/-- `extract_json_objects` of one_click_test.py. -/
def extractOC (parse : List Char → Option J) (text : List Char) : List J :=
  (scanAux (stepOC parse text) text 0 ⟨0, none, []⟩).objs

/-- The balanced-brace candidate substrings each implementation identifies:
the extraction run in which every candidate "parses" to itself. -/
def candidatesRD (text : List Char) : List (List Char) :=
  extractRD some text

/-- Candidates identified by the one_click variant. -/
def candidatesOC (text : List Char) : List (List Char) :=
  extractOC some text

/-- Every prefix of the text closes at most as many braces as it opens,
relative to a starting depth `d`: the condition under which the two
scanners coincide. -/
def nonNegDepth : List Char → Int → Bool
  | [], _ => true
  | c :: rest, d =>
      if c = '{' then nonNegDepth rest (d + 1)
      else if c = '}' then
        if 0 < d then nonNegDepth rest (d - 1) else false
      else nonNegDepth rest d

example : candidatesRD "ab \x7b\"x\": 1\x7d c \x7b2\x7d \x7b\"y\":[]\x7d".toList =
    ["\x7b\"x\": 1\x7d".toList, "\x7b2\x7d".toList, "\x7b\"y\":[]\x7d".toList] := by decide
example : candidatesRD "\x7d\x7b\x7d".toList = ["\x7b\x7d".toList] := by decide
example : candidatesOC "\x7d\x7b\x7d".toList = [] := by decide
example : candidatesOC "{} {a} {{}}".toList =
    ["{}".toList, "{a}".toList, "{{}}".toList] := by decide
example : nonNegDepth "{} {a}".toList 0 = true := by decide
example : nonNegDepth "\x7d\x7b\x7d".toList 0 = false := by decide

/-! ## Mock facilitator (scripts/mock_facilitator.py)

```
class PaymentRequest(BaseModel):
    amount: float
    currency: str
    metadata: dict | None = None
    from_address: str | None = None
    network: str | None = None

@app.post("/create_payment")
async def create_payment(req: PaymentRequest, response: Response):
    tx_id = "tx_" + uuid.uuid4().hex[:12]
    response.headers["X-PAYMENT-RESPONSE"] = tx_id
    return {"id": tx_id, "status": "success", "received": req.dict()}
```
(similarly `/verify` and `/settle`).  FastAPI validates the request body
against `PaymentRequest` before the handler runs; a body that fails
validation is answered with `422 Unprocessable Entity` and the handler is
never entered.  The fresh `uuid.uuid4().hex[:12]` is abstracted as the
`hex12` parameter. -/

/-- JSON values (request bodies). -/
inductive JVal where
  | jnull
  | jbool (b : Bool)
  | jnum (q : Rat)
  | jstr (s : String)
  | jarr (xs : List JVal)
  | jobj (fields : List (String × JVal))

/-- The validated `PaymentRequest` pydantic model. -/
structure PaymentRequest where
  amount : Rat
  currency : String
  metadata : Option (List (String × JVal))
  from_address : Option String
  network : Option String

/-- Pydantic validation of a request body against `PaymentRequest`:
`amount` (number) and `currency` (string) are required; the three optional
fields default to `None` when absent or `null`; unknown fields are
ignored; a field of the wrong shape fails validation. -/
def validateBody (j : JVal) : Option PaymentRequest :=
  match j with
  | .jobj fields =>
      match fields.lookup "amount", fields.lookup "currency" with
      | some (.jnum a), some (.jstr c) =>
          let md : Option (Option (List (String × JVal))) :=
            match fields.lookup "metadata" with
            | none => some none
            | some .jnull => some none
            | some (.jobj m) => some (some m)
            | some _ => none
          let fa : Option (Option String) :=
            match fields.lookup "from_address" with
            | none => some none
            | some .jnull => some none
            | some (.jstr s) => some (some s)
            | some _ => none
          let nw : Option (Option String) :=
            match fields.lookup "network" with
            | none => some none
            | some .jnull => some none
            | some (.jstr s) => some (some s)
            | some _ => none
          match md, fa, nw with
          | some m, some f, some n => some ⟨a, c, m, f, n⟩
          | _, _, _ => none
      | _, _ => none
  | _ => none

/-- Response bodies produced by the mock facilitator routes. -/
inductive RespBody where
  | payment (id : String) (status : String) (received : PaymentRequest)
  | verified (ok : Bool) (message : String) (received : PaymentRequest)
  | validationError

/-- An HTTP response: status code, body, and response headers. -/
structure HttpResponse where
  code : Nat
  body : RespBody
  headers : List (String × String)

/-- `tx_id = "tx_" + uuid.uuid4().hex[:12]`. -/
def mkTxId (hex12 : String) : String := "tx_" ++ hex12

/-- `POST /create_payment`. -/
def create_payment (hex12 : String) (body : JVal) : HttpResponse :=
  match validateBody body with
  | none => ⟨422, .validationError, []⟩
  | some req =>
      ⟨200, .payment (mkTxId hex12) "success" req,
        [("X-PAYMENT-RESPONSE", mkTxId hex12)]⟩

/-- `POST /settle`. -/
def settle (hex12 : String) (body : JVal) : HttpResponse :=
  match validateBody body with
  | none => ⟨422, .validationError, []⟩
  | some req =>
      ⟨200, .payment (mkTxId hex12) "settled" req,
        [("X-PAYMENT-RESPONSE", mkTxId hex12)]⟩

/-- `POST /verify` (no response header is set on this route). -/
def verify (body : JVal) : HttpResponse :=
  match validateBody body with
  | none => ⟨422, .validationError, []⟩
  | some req => ⟨200, .verified true "verified" req, []⟩

/-! ## The send_usdc_and_verify.py `main` flow

The orchestration, in source order (line numbers of the script):

1. missing RPC / private key / token address / recipient → `sys.exit(2)`
   (87–98);
2. `w3.is_connected()` false → `sys.exit(3)` (108–110);
3. `decimals = token.functions.decimals().call()` with
   `except: decimals = 18` (118–121) — the symbol lookup (122–125) only
   feeds display strings;
4. reading the two `balanceOf` values raises → `sys.exit(4)` (128–133);
5. `amount_raw = parse_amount(amount_str, decimals)`; `amount_raw <= 0` →
   `sys.exit(2)` (138–141) — a malformed literal raises an uncaught
   `InvalidOperation`, which terminates the interpreter with exit code 1;
6. build, sign, submit (`send_raw_transaction`, 144–162) — modelled as
   succeeding, which is the path every claim about this flow concerns;
7. `wait_for_transaction_receipt(tx_hash, timeout=120)` (164–167);
   `wait` is always true (line 85: `args.wait or True`); on timeout the
   call raises an uncaught exception → interpreter exit code 1;
8. reading the two post-balances raises → `sys.exit(4)` (172–177);
9. `deducted = raw_from_before - raw_from_after`,
   `received = raw_to_after - raw_to_before` (182–183);
10. `receipt.get("status", 0) == 1` → `sys.exit(0)`, else `sys.exit(5)`
    (187–192).

There is no pre-flight balance comparison, no distinct exit for
insufficient balance or timeout, and no comparison of `received` against
`amount_raw` anywhere. -/

/-- Outcome of the confirmation wait: a receipt with `status == 1`, a
receipt with any other status, or the timeout exception. -/
inductive ReceiptOutcome where
  | success
  | failed
  | timedOut
  deriving Repr, DecidableEq

/-- The environment a run of `main` observes: CLI/env inputs and the
responses of the remote node. -/
structure SendEnv where
  rpcPresent : Bool
  privPresent : Bool
  tokenPresent : Bool
  toPresent : Bool
  connected : Bool
  /-- `token.functions.decimals().call()`; `none` models the call raising. -/
  decimalsLookup : Option Nat
  /-- `(balanceOf(sender), balanceOf(receiver))` before; `none` ≙ raised. -/
  balancesBefore : Option (Nat × Nat)
  amountStr : List Char
  receipt : ReceiptOutcome
  /-- `(balanceOf(sender), balanceOf(receiver))` after; `none` ≙ raised. -/
  balancesAfter : Option (Nat × Nat)

/-- What a run produced: the process exit code, whether a transaction was
submitted to the node, and the computed quantities (when reached). -/
structure FlowResult where
  exitCode : Nat
  submitted : Bool
  amountRaw : Option Int
  deducted : Option Int
  received : Option Int
  deriving Repr, DecidableEq

/-- `main` of send_usdc_and_verify.py as a function of its environment. -/
def sendUsdcFlow (env : SendEnv) : FlowResult :=
  if !env.rpcPresent || !env.privPresent || !env.tokenPresent || !env.toPresent then
    ⟨2, false, none, none, none⟩
  else if !env.connected then
    ⟨3, false, none, none, none⟩
  else
    let decimals := env.decimalsLookup.getD 18
    match env.balancesBefore with
    | none => ⟨4, false, none, none, none⟩
    | some bal =>
        match parse_amount env.amountStr decimals with
        | none => ⟨1, false, none, none, none⟩
        | some amount_raw =>
            if amount_raw ≤ 0 then ⟨2, false, some amount_raw, none, none⟩
            else
              -- build, sign, send_raw_transaction: the transaction is now submitted
              match env.receipt with
              | .timedOut => ⟨1, true, some amount_raw, none, none⟩
              | receipt =>
                  match env.balancesAfter with
                  | none => ⟨4, true, some amount_raw, none, none⟩
                  | some bal' =>
                      let deducted : Int := (bal.1 : Int) - (bal'.1 : Int)
                      let received : Int := (bal'.2 : Int) - (bal.2 : Int)
                      if receipt = .success then
                        ⟨0, true, some amount_raw, some deducted, some received⟩
                      else
                        ⟨5, true, some amount_raw, some deducted, some received⟩

/-- An environment in which every argument is present and the node
cooperates; used by concrete runs below. -/
def baseEnv : SendEnv :=
  { rpcPresent := true, privPresent := true, tokenPresent := true,
    toPresent := true, connected := true, decimalsLookup := some 6,
    balancesBefore := some (1000, 0), amountStr := "0.0001".toList,
    receipt := .success, balancesAfter := some (900, 100) }

example : sendUsdcFlow baseEnv =
    ⟨0, true, some 100, some 100, some 100⟩ := by decide
example : sendUsdcFlow { baseEnv with amountStr := "0".toList } =
    ⟨2, false, some 0, none, none⟩ := by decide
example : sendUsdcFlow { baseEnv with connected := false } =
    ⟨3, false, none, none, none⟩ := by decide

/-- All four required CLI/env inputs are present (lines 87–98 pass). -/
def argsOk (env : SendEnv) : Bool :=
  env.rpcPresent && env.privPresent && env.tokenPresent && env.toPresent

/-- Run with three fractional digits against a 2-decimals token:
`parse_amount("0.129", 2)` silently truncates to `12`. -/
def envExcessPrecision : SendEnv :=
  { baseEnv with decimalsLookup := some 2, amountStr := "0.129".toList,
                 balancesBefore := some (1000, 0), balancesAfter := some (988, 12) }

/-- Run in which `token.functions.decimals().call()` raised. -/
def envDecimalsFailure : SendEnv :=
  { baseEnv with decimalsLookup := none, amountStr := "1".toList,
                 balancesBefore := some (10 ^ 19, 0),
                 balancesAfter := some (9 * 10 ^ 18, 10 ^ 18) }

/-- Run of the spec's verification scenario in which the receiver gains
only 90 of the 100 raw units requested. -/
def envPartialReceive : SendEnv :=
  { baseEnv with amountStr := "0.0001".toList,
                 balancesBefore := some (1000, 0), balancesAfter := some (900, 90) }

/-- Run with a zero sender balance and a positive transfer amount. -/
def envInsufficient : SendEnv :=
  { baseEnv with amountStr := "0.0001".toList,
                 balancesBefore := some (0, 0), balancesAfter := some (0, 0) }

/-- Run whose receiver delta (50) differs from the requested amount (100)
while the receipt reports success. -/
def envFeeAnomaly : SendEnv :=
  { baseEnv with amountStr := "0.0001".toList,
                 balancesBefore := some (1000, 5), balancesAfter := some (850, 55) }

/-- A concrete stand-in for `json.loads` that accepts exactly the text
`{}` (which is valid JSON) and rejects everything else. -/
def parseOnlyEmptyObj (c : List Char) : Option Unit :=
  if c = "{}".toList then some () else none

/-! ## Claim theorems -/

/-- **C1** (counterexample).  The Solana script's human-to-raw conversion
`int(float(amount_str) * 10**9)` submits `15699999` raw units for the
amount string `"0.0157"`, while exact scaling gives
`0.0157 × 10^9 = 15700000` (as the exact-`Decimal` conversion of the EVM
script confirms): a binary floating-point operation participates in a
fund-moving conversion and changes the submitted amount. -/
theorem c1_float_on_solana_path :
    solana_raw_amount "0.0157".toList 9 = some 15699999 ∧
    parse_amount "0.0157".toList 9 = some 15700000 ∧
    (15699999 : Int) ≠ 15700000 := by
  refine ⟨by decide, by decide, by decide⟩

/-- **C1** (amended).  On the EVM paths (`parse_amount` of
send_usdc_and_verify.py, `parse_token_amount` of evm_test_usdc.py) the
conversion is exact `Decimal` arithmetic: a non-negative literal with at
most `d` fractional digits converts to exactly its coefficient scaled by
`10^(d - fractional digits)`; the size hypothesis keeps the computation
inside the default 28-significant-digit decimal context, where the model
is exact.  The Solana paths instead convert through binary64 floating
point and can deviate from exact scaling (see the counterexample). -/
theorem c1_evm_conversion_exact (s : List Char) (d : Nat) (L : DecLit)
    (hs : splitLit s = some L) (hneg : L.neg = false) (hf : scale L ≤ d)
    (_hlen : (L.ip ++ L.fp).length + d ≤ 28) :
    parse_amount s d = some ((coeff L * 10 ^ (d - scale L) : Nat) : Int) := by
  have h10 : (0 : Nat) < 10 ^ scale L := pow_pos (by norm_num) _
  have hpow : (10 : Nat) ^ d = 10 ^ (d - scale L) * 10 ^ scale L := by
    rw [← pow_add]
    congr 1
    omega
  unfold parse_amount
  rw [hs]
  simp only [Option.map_some', hneg, Bool.false_eq_true, if_false]
  rw [hpow, ← mul_assoc, Nat.mul_div_cancel _ h10]

/-- **C1** witness: the conversion theorem applied to `"1.5"` with 6
decimals. -/
theorem c1_evm_conversion_exact_witness :
    splitLit "1.5".toList = some ⟨false, ['1'], ['5']⟩ ∧
    parse_amount "1.5".toList 6 =
      some ((coeff ⟨false, ['1'], ['5']⟩ * 10 ^ (6 - scale ⟨false, ['1'], ['5']⟩) : Nat) : Int) :=
  ⟨by decide,
   c1_evm_conversion_exact "1.5".toList 6 ⟨false, ['1'], ['5']⟩
     (by decide) (by decide) (by decide) (by decide)⟩

/-- **C3** (counterexample).  Against a 2-decimals token, the amount
`"0.129"` has more fractional digits than the token allows, yet the flow
does not fail with a validation error: `parse_amount` silently truncates
it to `12` raw units, the only guard (`amount_raw <= 0`) passes, and the
transfer is submitted and completes with exit code 0. -/
theorem c3_excess_precision_truncates :
    sendUsdcFlow envExcessPrecision = ⟨0, true, some 12, some 12, some 12⟩ ∧
    parse_amount "0.129".toList 2 = some 12 := by
  refine ⟨by decide, by decide⟩

/-- **C3** (amended).  In send_usdc_and_verify.py, `"0"` and negative
decimal amounts are rejected with the validation exit code 2 before any
submission (the parsed raw amount is `≤ 0` and the guard at lines 138–141
fires); but a value with more fractional digits than the token's decimals
is *not* rejected — it is silently truncated toward zero, and whenever the
truncated amount is positive the flow proceeds to submit. -/
theorem c3_zero_negative_rejected_truncation_not :
    (∀ (env : SendEnv) (bal : Nat × Nat) (r : Int),
      argsOk env = true → env.connected = true →
      env.balancesBefore = some bal →
      parse_amount env.amountStr (env.decimalsLookup.getD 18) = some r →
      r ≤ 0 →
      sendUsdcFlow env = ⟨2, false, some r, none, none⟩) ∧
    (∀ (env : SendEnv) (bal : Nat × Nat) (r : Int),
      argsOk env = true → env.connected = true →
      env.balancesBefore = some bal →
      parse_amount env.amountStr (env.decimalsLookup.getD 18) = some r →
      (∃ L, splitLit env.amountStr = some L ∧
        env.decimalsLookup.getD 18 < scale L) →
      0 < r →
      (sendUsdcFlow env).submitted = true) := by
  constructor
  · intro env bal r hargs hconn hbal hparse hr
    simp only [argsOk, Bool.and_eq_true] at hargs
    obtain ⟨⟨⟨h1, h2⟩, h3⟩, h4⟩ := hargs
    simp only [sendUsdcFlow, h1, h2, h3, h4, hconn, hbal, hparse,
      Bool.not_true, Bool.false_or, Bool.or_self, Bool.false_eq_true,
      if_false, if_pos hr]
  · intro env bal r hargs hconn hbal hparse _ hr
    simp only [argsOk, Bool.and_eq_true] at hargs
    obtain ⟨⟨⟨h1, h2⟩, h3⟩, h4⟩ := hargs
    simp only [sendUsdcFlow, h1, h2, h3, h4, hconn, hbal, hparse,
      Bool.not_true, Bool.false_or, Bool.or_self, Bool.false_eq_true,
      if_false, if_neg (by omega : ¬ r ≤ 0)]
    cases env.receipt <;> cases env.balancesAfter <;> simp

/-- **C3** witness: rejection of `"0"` and proceeding on the truncated
`"0.129"`, at concrete runs. -/
theorem c3_zero_negative_rejected_truncation_not_witness :
    sendUsdcFlow { baseEnv with amountStr := "0".toList } =
      ⟨2, false, some 0, none, none⟩ ∧
    (sendUsdcFlow envExcessPrecision).submitted = true :=
  ⟨c3_zero_negative_rejected_truncation_not.1
      { baseEnv with amountStr := "0".toList } (1000, 0) 0
      (by decide) (by decide) (by decide) (by decide) (by decide),
   c3_zero_negative_rejected_truncation_not.2 envExcessPrecision (1000, 0) 12
      (by decide) (by decide) (by decide) (by decide)
      ⟨⟨false, ['0'], ['1', '2', '9']⟩, by decide, by decide⟩ (by decide)⟩

/-- **C4** (counterexample).  A run in which the decimals lookup raised:
the flow silently assumes 18 decimals, converts `"1"` to `10^18` raw
units, and submits the transfer — the default is used on a fund-moving
path, not only for display. -/
theorem c4_default_decimals_used_for_transfer :
    envDecimalsFailure.decimalsLookup = none ∧
    sendUsdcFlow envDecimalsFailure =
      ⟨0, true, some (10 ^ 18), some (10 ^ 18), some (10 ^ 18)⟩ := by
  refine ⟨by decide, by decide⟩

/-- **C4** (amended).  When the token decimals lookup fails, the send
flow silently substitutes 18 (`except Exception: decimals = 18`) and uses
that default for the human-to-raw conversion that feeds the submitted
transfer. -/
theorem c4_decimals_default_feeds_transfer (env : SendEnv)
    (bal : Nat × Nat) (r : Int)
    (hargs : argsOk env = true) (hconn : env.connected = true)
    (hdec : env.decimalsLookup = none)
    (hbal : env.balancesBefore = some bal)
    (hparse : parse_amount env.amountStr 18 = some r) (hr : 0 < r) :
    (sendUsdcFlow env).submitted = true ∧
    (sendUsdcFlow env).amountRaw = some r := by
  simp only [argsOk, Bool.and_eq_true] at hargs
  obtain ⟨⟨⟨h1, h2⟩, h3⟩, h4⟩ := hargs
  have hparse' : parse_amount env.amountStr (env.decimalsLookup.getD 18) = some r := by
    rw [hdec]; exact hparse
  simp only [sendUsdcFlow, h1, h2, h3, h4, hconn, hbal, hparse',
    Bool.not_true, Bool.false_or, Bool.or_self, Bool.false_eq_true,
    if_false, if_neg (by omega : ¬ r ≤ 0)]
  cases env.receipt <;> cases env.balancesAfter <;> simp

/-- **C4** witness: the amended theorem at the concrete failed-lookup
run. -/
theorem c4_decimals_default_feeds_transfer_witness :
    (sendUsdcFlow envDecimalsFailure).submitted = true ∧
    (sendUsdcFlow envDecimalsFailure).amountRaw = some (10 ^ 18) :=
  c4_decimals_default_feeds_transfer envDecimalsFailure (10 ^ 19, 0) (10 ^ 18)
    (by decide) (by decide) (by decide) (by decide) (by decide) (by decide)

/-- **C5** (counterexample).  The spec's scenario with a short receive:
before-balances sender 1000, receiver 0; transfer of raw amount 100;
post-balance read gives receiver 90.  The script computes
`deducted = 100`, `received = 90` — and still exits 0 ("Transfer
succeeded"), because success is decided solely by `receipt.status == 1`;
no verification-mismatch classification exists. -/
theorem c5_receiver_90_reported_success :
    envPartialReceive.balancesBefore = some (1000, 0) ∧
    envPartialReceive.balancesAfter = some (900, 90) ∧
    sendUsdcFlow envPartialReceive = ⟨0, true, some 100, some 100, some 90⟩ := by
  refine ⟨by decide, by decide, by decide⟩

/-- **C5** (amended).  After confirmation the script computes
`deducted = before.sender - after.sender` and
`received = after.receiver - before.receiver` exactly as stated and
reports them, but it performs no classification of the deltas: the run
exits 0 if and only if the receipt has `status == 1`, regardless of
whether `received` equals the requested raw amount (so the idealized
1000/0 → 900/100 run is reported as success with `deducted = received =
100`, and the 90-unit read is reported as success just the same). -/
theorem c5_deltas_computed_but_unclassified (env : SendEnv)
    (bal bal' : Nat × Nat) (r : Int)
    (hargs : argsOk env = true) (hconn : env.connected = true)
    (hbal : env.balancesBefore = some bal)
    (hparse : parse_amount env.amountStr (env.decimalsLookup.getD 18) = some r)
    (hr : 0 < r) (hrc : env.receipt ≠ .timedOut)
    (hbal' : env.balancesAfter = some bal') :
    (sendUsdcFlow env).deducted = some ((bal.1 : Int) - (bal'.1 : Int)) ∧
    (sendUsdcFlow env).received = some ((bal'.2 : Int) - (bal.2 : Int)) ∧
    ((sendUsdcFlow env).exitCode = 0 ↔ env.receipt = .success) := by
  simp only [argsOk, Bool.and_eq_true] at hargs
  obtain ⟨⟨⟨h1, h2⟩, h3⟩, h4⟩ := hargs
  simp only [sendUsdcFlow, h1, h2, h3, h4, hconn, hbal, hparse,
    Bool.not_true, Bool.false_or, Bool.or_self, Bool.false_eq_true,
    if_false, if_neg (by omega : ¬ r ≤ 0)]
  cases hc : env.receipt <;> simp_all

/-- **C5** witness: the amended theorem at the idealized zero-fee run
(1000/0 → 900/100, raw amount 100, receipt success). -/
theorem c5_deltas_computed_but_unclassified_witness :
    (sendUsdcFlow baseEnv).deducted = some ((1000 : Int) - (900 : Int)) ∧
    (sendUsdcFlow baseEnv).received = some ((100 : Int) - (0 : Int)) ∧
    ((sendUsdcFlow baseEnv).exitCode = 0 ↔ baseEnv.receipt = .success) :=
  c5_deltas_computed_but_unclassified baseEnv (1000, 0) (900, 100) 100
    (by decide) (by decide) (by decide) (by decide) (by decide)
    (by decide) (by decide)

/-- **C6** (counterexample).  A run whose sender token balance is 0 while
the requested transfer is 100 raw units: no `InsufficientBalance` failure
occurs and the transaction is submitted to the node anyway (the flow has
no pre-flight balance comparison at all). -/
theorem c6_insufficient_balance_still_submits :
    envInsufficient.balancesBefore = some (0, 0) ∧
    (sendUsdcFlow envInsufficient).amountRaw = some 100 ∧
    (sendUsdcFlow envInsufficient).submitted = true := by
  refine ⟨by decide, by decide, by decide⟩

/-- **C6** (amended).  The flow performs no pre-flight balance check:
whenever the arguments are present, the node is connected, the balance
read succeeds and the parsed amount is positive, the transaction is
submitted — for every sender balance, including balances smaller than the
amount.  Insufficiency surfaces only through the remote node after
submission. -/
theorem c6_no_preflight_balance_check (env : SendEnv)
    (bal : Nat × Nat) (r : Int)
    (hargs : argsOk env = true) (hconn : env.connected = true)
    (hbal : env.balancesBefore = some bal)
    (hparse : parse_amount env.amountStr (env.decimalsLookup.getD 18) = some r)
    (hr : 0 < r) :
    (sendUsdcFlow env).submitted = true := by
  simp only [argsOk, Bool.and_eq_true] at hargs
  obtain ⟨⟨⟨h1, h2⟩, h3⟩, h4⟩ := hargs
  simp only [sendUsdcFlow, h1, h2, h3, h4, hconn, hbal, hparse,
    Bool.not_true, Bool.false_or, Bool.or_self, Bool.false_eq_true,
    if_false, if_neg (by omega : ¬ r ≤ 0)]
  cases env.receipt <;> cases env.balancesAfter <;> simp

/-- **C6** witness: the amended theorem at the zero-balance run. -/
theorem c6_no_preflight_balance_check_witness :
    (sendUsdcFlow envInsufficient).submitted = true :=
  c6_no_preflight_balance_check envInsufficient (0, 0) 100
    (by decide) (by decide) (by decide) (by decide) (by decide)

/-- **C7** (counterexample).  A run that exits 0 although the transfer is
not "verified Exact": the requested raw amount is 100 but the receiver
delta is 50 (and the sender delta 150).  Exit code 0 is granted on
`receipt.status == 1` alone, so the claimed equivalence between exit 0
and an Exact verification fails. -/
theorem c7_exit_zero_without_exact_delta :
    sendUsdcFlow envFeeAnomaly = ⟨0, true, some 100, some 150, some 50⟩ ∧
    (50 : Int) ≠ 100 := by
  refine ⟨by decide, by decide⟩

/-- **C7** (amended).  The script exits 0 exactly when every stage
completes and the receipt reports `status == 1` — independent of any
delta classification.  Its distinct codes are: 2 for missing inputs and
for a non-positive parsed amount (validation), 3 for connection failure,
4 for a failed balance read (before or after), 5 for a missing/failed
receipt status, and an uncaught-exception exit (code 1) for a malformed
amount literal or a confirmation timeout; there is no insufficient-balance
exit code and no dedicated timeout code. -/
theorem c7_exit_code_characterisation (env : SendEnv) :
    (sendUsdcFlow env).exitCode = 0 ↔
      (argsOk env = true ∧ env.connected = true ∧
        env.balancesBefore.isSome = true ∧
        (∃ r, parse_amount env.amountStr (env.decimalsLookup.getD 18) = some r ∧
          0 < r) ∧
        env.receipt = .success ∧ env.balancesAfter.isSome = true) := by
  obtain ⟨rp, pp, tp, top, cn, dl, bb, as_, rc, ba⟩ := env
  simp only [sendUsdcFlow, argsOk]
  cases rp <;> cases pp <;> cases tp <;> cases top <;> cases cn <;>
    simp only [Bool.not_true, Bool.not_false, Bool.false_or, Bool.true_or,
      Bool.or_true, Bool.or_self, Bool.false_and, Bool.and_false,
      Bool.true_and, Bool.and_true, Bool.and_self, if_true, if_false] <;>
    try (simp; done)
  cases bb <;> try (simp; done)
  rcases hp : parse_amount as_ (dl.getD 18) with _ | r <;> simp only [hp]
  · simp
  · rcases le_or_lt r 0 with hr | hr
    · rw [if_pos hr]
      simp
      omega
    · rw [if_neg (by omega : ¬ r ≤ 0)]
      cases rc <;> cases ba <;> simp_all

/-- **C9** (counterexample).  The mock's POST endpoints do *not* succeed
unconditionally: the request body is validated against the
`PaymentRequest` pydantic model before any handler runs, so the empty
JSON object (missing the required `amount` and `currency` fields) is
answered with 422 on all three routes, not 200. -/
theorem c9_empty_body_rejected :
    (create_payment "0123456789ab" (.jobj [])).code = 422 ∧
    (settle "0123456789ab" (.jobj [])).code = 422 ∧
    (verify (.jobj [])).code = 422 ∧ (422 : Nat) ≠ 200 :=
  ⟨rfl, rfl, rfl, by decide⟩

/-- **C9** (amended).  For every request body that validates against
`PaymentRequest` (`amount`: number and `currency`: string required;
`metadata`, `from_address`, `network` optional), `POST /create_payment`
and `POST /settle` respond 200 with `{id, status, received}` — status
`"success"` and `"settled"` respectively, `received` the validated echoed
body — and the response header `X-PAYMENT-RESPONSE` equal to the id;
`POST /verify` responds 200 with `{ok: true, message: "verified",
received}` and no such header.  The handlers themselves have no failure
path; bodies failing validation are answered 422 by the framework. -/
theorem c9_mock_routes_on_valid_body (hex12 : String) (body : JVal)
    (req : PaymentRequest) (hv : validateBody body = some req) :
    create_payment hex12 body =
      ⟨200, .payment (mkTxId hex12) "success" req,
        [("X-PAYMENT-RESPONSE", mkTxId hex12)]⟩ ∧
    settle hex12 body =
      ⟨200, .payment (mkTxId hex12) "settled" req,
        [("X-PAYMENT-RESPONSE", mkTxId hex12)]⟩ ∧
    verify body = ⟨200, .verified true "verified" req, []⟩ := by
  refine ⟨?_, ?_, ?_⟩ <;> simp only [create_payment, settle, verify, hv]

/-- **C9** witness: the amended theorem at the concrete body
`{"amount": 1, "currency": "USD"}`. -/
theorem c9_mock_routes_on_valid_body_witness :
    create_payment "0123456789ab"
        (.jobj [("amount", .jnum 1), ("currency", .jstr "USD")]) =
      ⟨200, .payment (mkTxId "0123456789ab") "success" ⟨1, "USD", none, none, none⟩,
        [("X-PAYMENT-RESPONSE", mkTxId "0123456789ab")]⟩ ∧
    settle "0123456789ab"
        (.jobj [("amount", .jnum 1), ("currency", .jstr "USD")]) =
      ⟨200, .payment (mkTxId "0123456789ab") "settled" ⟨1, "USD", none, none, none⟩,
        [("X-PAYMENT-RESPONSE", mkTxId "0123456789ab")]⟩ ∧
    verify (.jobj [("amount", .jnum 1), ("currency", .jstr "USD")]) =
      ⟨200, .verified true "verified" ⟨1, "USD", none, none, none⟩, []⟩ :=
  c9_mock_routes_on_valid_body "0123456789ab"
    (.jobj [("amount", .jnum 1), ("currency", .jstr "USD")])
    ⟨1, "USD", none, none, none⟩ rfl

/-- `stepRD` on an opening brace. -/
theorem stepRD_open {J : Type} (parse : List Char → Option J) (text : List Char)
    (d : Int) (st : Option Nat) (o : List J) (i : Nat) :
    stepRD parse text ⟨d, st, o⟩ i '{' =
      ⟨d + 1, if d = 0 then some i else st, o⟩ := by
  simp [stepRD]

/-- `stepRD` on a closing brace at depth 0: the stack is empty, nothing
happens. -/
theorem stepRD_close_stuck {J : Type} (parse : List Char → Option J)
    (text : List Char) (d : Int) (st : Option Nat) (o : List J) (i : Nat)
    (hd : d = 0) :
    stepRD parse text ⟨d, st, o⟩ i '}' = ⟨d, st, o⟩ := by
  simp [stepRD, hd]

/-- `stepRD` on a closing brace that pops but does not empty the stack. -/
theorem stepRD_close_pop {J : Type} (parse : List Char → Option J)
    (text : List Char) (d : Int) (st : Option Nat) (o : List J) (i : Nat)
    (hd : d ≠ 0) (hd1 : d - 1 ≠ 0) :
    stepRD parse text ⟨d, st, o⟩ i '}' = ⟨d - 1, st, o⟩ := by
  simp [stepRD, hd, hd1]

/-- `stepRD` on the closing brace that empties the stack with no
candidate start recorded. -/
theorem stepRD_close_finish_none {J : Type} (parse : List Char → Option J)
    (text : List Char) (d : Int) (o : List J) (i : Nat)
    (hd : d ≠ 0) (hd1 : d - 1 = 0) :
    stepRD parse text ⟨d, none, o⟩ i '}' = ⟨d - 1, none, o⟩ := by
  simp [stepRD, hd, hd1]

/-- `stepRD` on the closing brace that completes a candidate: the slice
is parsed and appended on success. -/
theorem stepRD_close_finish_some {J : Type} (parse : List Char → Option J)
    (text : List Char) (d : Int) (j : Nat) (o : List J) (i : Nat)
    (hd : d ≠ 0) (hd1 : d - 1 = 0) :
    stepRD parse text ⟨d, some j, o⟩ i '}' =
      ⟨d - 1, none, o ++ (parse (slice text j i)).toList⟩ := by
  cases hp : parse (slice text j i) <;> simp [stepRD, hd, hd1, hp]

/-- `stepRD` ignores all other characters. -/
theorem stepRD_other {J : Type} (parse : List Char → Option J)
    (text : List Char) (d : Int) (st : Option Nat) (o : List J) (i : Nat)
    (c : Char) (h1 : c ≠ '{') (h2 : c ≠ '}') :
    stepRD parse text ⟨d, st, o⟩ i c = ⟨d, st, o⟩ := by
  simp [stepRD, h1, h2]

/-- `stepOC` on an opening brace. -/
theorem stepOC_open {J : Type} (parse : List Char → Option J) (text : List Char)
    (d : Int) (st : Option Nat) (o : List J) (i : Nat) :
    stepOC parse text ⟨d, st, o⟩ i '{' =
      ⟨d + 1, if d = 0 then some i else st, o⟩ := by
  simp [stepOC]

/-- `stepOC` on a closing brace that does not bring the counter to 0. -/
theorem stepOC_close_pop {J : Type} (parse : List Char → Option J)
    (text : List Char) (d : Int) (st : Option Nat) (o : List J) (i : Nat)
    (hd1 : d - 1 ≠ 0) :
    stepOC parse text ⟨d, st, o⟩ i '}' = ⟨d - 1, st, o⟩ := by
  simp [stepOC, hd1]

/-- `stepOC` on a closing brace reaching counter 0 with no start
recorded. -/
theorem stepOC_close_finish_none {J : Type} (parse : List Char → Option J)
    (text : List Char) (d : Int) (o : List J) (i : Nat) (hd1 : d - 1 = 0) :
    stepOC parse text ⟨d, none, o⟩ i '}' = ⟨d - 1, none, o⟩ := by
  simp [stepOC, hd1]

/-- `stepOC` on the closing brace that completes a candidate. -/
theorem stepOC_close_finish_some {J : Type} (parse : List Char → Option J)
    (text : List Char) (d : Int) (j : Nat) (o : List J) (i : Nat)
    (hd1 : d - 1 = 0) :
    stepOC parse text ⟨d, some j, o⟩ i '}' =
      ⟨d - 1, none, o ++ (parse (slice text j i)).toList⟩ := by
  cases hp : parse (slice text j i) <;> simp [stepOC, hd1, hp]

/-- `stepOC` ignores all other characters. -/
theorem stepOC_other {J : Type} (parse : List Char → Option J)
    (text : List Char) (d : Int) (st : Option Nat) (o : List J) (i : Nat)
    (c : Char) (h1 : c ≠ '{') (h2 : c ≠ '}') :
    stepOC parse text ⟨d, st, o⟩ i c = ⟨d, st, o⟩ := by
  simp [stepOC, h1, h2]

/-- Appending a parsed candidate commutes with `filterMap`. -/
theorem filterMap_append_toList {J : Type} (parse : List Char → Option J)
    (o2 : List (List Char)) (x : List Char) :
    (o2 ++ (some x).toList).filterMap parse =
      o2.filterMap parse ++ (parse x).toList := by
  cases hp : parse x <;> simp [hp]

/-- The run_demo scanner is parametric in the parser: running it with
`parse` produces exactly the `parse`-successes, in order, of the
candidates produced by running it with `some`; depth and start evolve
identically. -/
theorem scanAux_stepRD_filterMap {J : Type} (parse : List Char → Option J)
    (text : List Char) :
    ∀ (rest : List Char) (i : Nat) (d : Int) (st : Option Nat)
      (o1 : List J) (o2 : List (List Char)),
      o1 = o2.filterMap parse →
      (scanAux (stepRD parse text) rest i ⟨d, st, o1⟩).objs =
        ((scanAux (stepRD some text) rest i ⟨d, st, o2⟩).objs).filterMap parse := by
  intro rest
  induction rest with
  | nil => intro i d st o1 o2 h; simpa [scanAux] using h
  | cons c cs ih =>
    intro i d st o1 o2 h
    simp only [scanAux]
    by_cases hc : c = '{'
    · subst hc
      rw [stepRD_open, stepRD_open]
      exact ih _ _ _ _ _ h
    · by_cases hc2 : c = '}'
      · subst hc2
        by_cases hd : d = 0
        · rw [stepRD_close_stuck _ _ _ _ _ _ hd, stepRD_close_stuck _ _ _ _ _ _ hd]
          exact ih _ _ _ _ _ h
        · by_cases hd1 : d - 1 = 0
          · cases st with
            | none =>
                rw [stepRD_close_finish_none _ _ _ _ _ hd hd1,
                  stepRD_close_finish_none _ _ _ _ _ hd hd1]
                exact ih _ _ _ _ _ h
            | some j =>
                rw [stepRD_close_finish_some _ _ _ _ _ _ hd hd1,
                  stepRD_close_finish_some _ _ _ _ _ _ hd hd1]
                refine ih _ _ _ _ _ ?_
                rw [filterMap_append_toList, h]
          · rw [stepRD_close_pop _ _ _ _ _ _ hd hd1,
              stepRD_close_pop _ _ _ _ _ _ hd hd1]
            exact ih _ _ _ _ _ h
      · rw [stepRD_other _ _ _ _ _ _ _ hc hc2, stepRD_other _ _ _ _ _ _ _ hc hc2]
        exact ih _ _ _ _ _ h

/-- Same parametricity for the one_click scanner. -/
theorem scanAux_stepOC_filterMap {J : Type} (parse : List Char → Option J)
    (text : List Char) :
    ∀ (rest : List Char) (i : Nat) (d : Int) (st : Option Nat)
      (o1 : List J) (o2 : List (List Char)),
      o1 = o2.filterMap parse →
      (scanAux (stepOC parse text) rest i ⟨d, st, o1⟩).objs =
        ((scanAux (stepOC some text) rest i ⟨d, st, o2⟩).objs).filterMap parse := by
  intro rest
  induction rest with
  | nil => intro i d st o1 o2 h; simpa [scanAux] using h
  | cons c cs ih =>
    intro i d st o1 o2 h
    simp only [scanAux]
    by_cases hc : c = '{'
    · subst hc
      rw [stepOC_open, stepOC_open]
      exact ih _ _ _ _ _ h
    · by_cases hc2 : c = '}'
      · subst hc2
        by_cases hd1 : d - 1 = 0
        · cases st with
          | none =>
              rw [stepOC_close_finish_none _ _ _ _ _ hd1,
                stepOC_close_finish_none _ _ _ _ _ hd1]
              exact ih _ _ _ _ _ h
          | some j =>
              rw [stepOC_close_finish_some _ _ _ _ _ _ hd1,
                stepOC_close_finish_some _ _ _ _ _ _ hd1]
              refine ih _ _ _ _ _ ?_
              rw [filterMap_append_toList, h]
        · rw [stepOC_close_pop _ _ _ _ _ _ hd1, stepOC_close_pop _ _ _ _ _ _ hd1]
          exact ih _ _ _ _ _ h
      · rw [stepOC_other _ _ _ _ _ _ _ hc hc2, stepOC_other _ _ _ _ _ _ _ hc hc2]
        exact ih _ _ _ _ _ h

/-- **C8** (confirmed).  Each extractor returns, in order of occurrence,
exactly the parses of the balanced-brace candidates its depth tracking
identifies: a candidate on which the (abstracted) `json.loads` fails is
silently skipped and the remaining results are unaffected.  Instantiating
`parse` with `some` exhibits the candidate sequence itself. -/
theorem c8_extractors_skip_malformed_candidates (J : Type)
    (parse : List Char → Option J) (text : List Char) :
    extractRD parse text = (candidatesRD text).filterMap parse ∧
    extractOC parse text = (candidatesOC text).filterMap parse :=
  ⟨scanAux_stepRD_filterMap parse text text 0 0 none [] [] rfl,
   scanAux_stepOC_filterMap parse text text 0 0 none [] [] rfl⟩

/-- **C10** (counterexample).  On the input `}{}` — an unmatched closing
brace before an object — the two extractors disagree: the stack-based
run_demo version recovers the object `{}` while the counter-based
one_click version recovers nothing (its counter goes negative and never
returns to zero at the closing brace of `{}`). -/
theorem c10_extractors_disagree :
    extractRD parseOnlyEmptyObj "\x7d\x7b\x7d".toList = [()] ∧
    extractOC parseOnlyEmptyObj "\x7d\x7b\x7d".toList = [] := by
  refine ⟨by decide, by decide⟩

/-- The two scanners take identical steps as long as the running depth
never needs to go negative. -/
theorem scanAux_RD_OC_agree {J : Type} (parse : List Char → Option J)
    (text : List Char) :
    ∀ (rest : List Char) (i : Nat) (d : Int) (st : Option Nat) (objs : List J),
      nonNegDepth rest d = true →
      scanAux (stepRD parse text) rest i ⟨d, st, objs⟩ =
        scanAux (stepOC parse text) rest i ⟨d, st, objs⟩ := by
  intro rest
  induction rest with
  | nil => intro i d st objs _; rfl
  | cons c cs ih =>
    intro i d st objs h
    simp only [scanAux]
    by_cases hc : c = '{'
    · subst hc
      simp only [nonNegDepth, if_pos rfl] at h
      rw [stepRD_open, stepOC_open]
      exact ih _ _ _ _ h
    · by_cases hc2 : c = '}'
      · subst hc2
        simp only [nonNegDepth] at h
        rw [if_neg (by decide : ¬(('}' : Char) = '{')), if_pos True.intro] at h
        by_cases hdpos : 0 < d
        case neg => rw [if_neg hdpos] at h; exact absurd h (by decide)
        rw [if_pos hdpos] at h
        have hd : d ≠ 0 := by omega
        by_cases hd1 : d - 1 = 0
        · cases st with
          | none =>
              rw [stepRD_close_finish_none _ _ _ _ _ hd hd1,
                stepOC_close_finish_none _ _ _ _ _ hd1]
              exact ih _ _ _ _ h
          | some j =>
              rw [stepRD_close_finish_some _ _ _ _ _ _ hd hd1,
                stepOC_close_finish_some _ _ _ _ _ _ hd1]
              exact ih _ _ _ _ h
        · rw [stepRD_close_pop _ _ _ _ _ _ hd hd1, stepOC_close_pop _ _ _ _ _ _ hd1]
          exact ih _ _ _ _ h
      · rw [stepRD_other _ _ _ _ _ _ _ hc hc2, stepOC_other _ _ _ _ _ _ _ hc hc2]
        simp only [nonNegDepth, if_neg hc, if_neg hc2] at h
        exact ih _ _ _ _ h

/-- **C10** (amended).  The two extractor implementations agree on every
input whose running brace depth never goes negative (no unmatched closing
brace at depth zero); on inputs with an unmatched `}` before an object
they differ, as the counterexample shows. -/
theorem c10_extractors_agree_nonneg_depth (J : Type)
    (parse : List Char → Option J) (text : List Char)
    (h : nonNegDepth text 0 = true) :
    extractRD parse text = extractOC parse text := by
  unfold extractRD extractOC
  rw [scanAux_RD_OC_agree parse text text 0 0 none [] h]

/-- **C10** witness: agreement on the well-bracketed input `x {} y`. -/
theorem c10_extractors_agree_nonneg_depth_witness :
    nonNegDepth "x {} y".toList 0 = true ∧
    extractRD parseOnlyEmptyObj "x {} y".toList =
      extractOC parseOnlyEmptyObj "x {} y".toList :=
  ⟨by decide,
   c10_extractors_agree_nonneg_depth Unit parseOnlyEmptyObj "x {} y".toList
     (by decide)⟩

/-! ### Digit-string arithmetic, towards the round-trip law (C2) -/

/-- A digit character is one of the ten concrete characters. -/
theorem digit_mem_cases {c : Char} (h : isDigit c = true) :
    c = '0' ∨ c = '1' ∨ c = '2' ∨ c = '3' ∨ c = '4' ∨ c = '5' ∨ c = '6' ∨
      c = '7' ∨ c = '8' ∨ c = '9' := by
  have := of_decide_eq_true h
  simpa [digitChars] using this

/-- Digit values are below ten. -/
theorem digitVal_lt_ten {c : Char} (h : isDigit c = true) : digitVal c < 10 := by
  rcases digit_mem_cases h with rfl|rfl|rfl|rfl|rfl|rfl|rfl|rfl|rfl|rfl <;> decide

/-- `digitChar` inverts `digitVal` on digit characters. -/
theorem digitChar_digitVal {c : Char} (h : isDigit c = true) :
    digitChar (digitVal c) = c := by
  rcases digit_mem_cases h with rfl|rfl|rfl|rfl|rfl|rfl|rfl|rfl|rfl|rfl <;> decide

/-- A digit other than `'0'` has a nonzero value. -/
theorem digitVal_ne_zero {c : Char} (h : isDigit c = true) (h0 : c ≠ '0') :
    digitVal c ≠ 0 := by
  rcases digit_mem_cases h with rfl|rfl|rfl|rfl|rfl|rfl|rfl|rfl|rfl|rfl <;>
    first
    | exact absurd rfl h0
    | decide

/-- Folding the digit accumulator from an arbitrary seed. -/
theorem foldl_digit_shift (l : List Char) :
    ∀ a : Nat, l.foldl (fun a c => 10 * a + digitVal c) a =
      a * 10 ^ l.length + natOfDigits l := by
  induction l with
  | nil => intro a; simp [natOfDigits]
  | cons c t ih =>
      intro a
      have h1 := ih (10 * a + digitVal c)
      have h2 := ih (digitVal c)
      simp only [List.foldl_cons, natOfDigits, List.length_cons, mul_zero,
        zero_add] at *
      rw [h1, h2]
      ring

/-- `natOfDigits` over an append. -/
theorem natOfDigits_append (l1 l2 : List Char) :
    natOfDigits (l1 ++ l2) = natOfDigits l1 * 10 ^ l2.length + natOfDigits l2 := by
  unfold natOfDigits
  rw [List.foldl_append]
  exact foldl_digit_shift l2 _

/-- `natOfDigits` of a cons. -/
theorem natOfDigits_cons (c : Char) (l : List Char) :
    natOfDigits (c :: l) = digitVal c * 10 ^ l.length + natOfDigits l := by
  have := natOfDigits_append [c] l
  simpa [natOfDigits] using this

/-- The last digit of a digit string is its value mod 10. -/
theorem natOfDigits_append_singleton_mod (l : List Char) (c : Char)
    (hc : isDigit c = true) :
    natOfDigits (l ++ [c]) % 10 = digitVal c := by
  rw [natOfDigits_append]
  have h1 : natOfDigits [c] = digitVal c := by simp [natOfDigits]
  have h2 := digitVal_lt_ten hc
  rw [h1]
  simp only [List.length_singleton, pow_one]
  omega

/-- The fuelled digit extractor agrees with `Nat.digits` once the fuel
covers the argument. -/
theorem digitsRevAux_eq_digits :
    ∀ (fuel n : Nat), n ≤ fuel → digitsRevAux fuel n = Nat.digits 10 n := by
  intro fuel
  induction fuel with
  | zero =>
      intro n hn
      obtain rfl : n = 0 := Nat.le_zero.1 hn
      simp [digitsRevAux]
  | succ f ih =>
      intro n hn
      by_cases h0 : n = 0
      · subst h0; simp [digitsRevAux]
      · rw [Nat.digits_def' (by norm_num : (1:ℕ) < 10) (Nat.pos_of_ne_zero h0)]
        simp only [digitsRevAux, if_neg h0]
        rw [ih (n / 10) (by
          have := Nat.div_lt_self (Nat.pos_of_ne_zero h0) (by norm_num : 1 < 10)
          omega)]

/-- `digitsRev` is `Nat.digits 10`. -/
theorem digitsRev_eq_digits (n : Nat) : digitsRev n = Nat.digits 10 n :=
  digitsRevAux_eq_digits n n le_rfl

/-- `natOfDigits` through Mathlib's `Nat.ofDigits`. -/
theorem natOfDigits_eq_ofDigits (l : List Char) :
    natOfDigits l = Nat.ofDigits 10 (l.map digitVal).reverse := by
  induction l using List.reverseRecOn with
  | nil => simp [natOfDigits, Nat.ofDigits]
  | append_singleton t c ih =>
      rw [natOfDigits_append]
      have h1 : natOfDigits [c] = digitVal c := by simp [natOfDigits]
      rw [h1]
      simp only [List.map_append, List.map_cons, List.map_nil,
        List.reverse_append, List.reverse_cons, List.reverse_nil,
        List.nil_append, List.singleton_append, List.length_singleton, pow_one]
      rw [Nat.ofDigits_cons, ← ih]
      ring

/-- Reading back the digits of a canonical digit string (nonempty, all
digits, no leading zero) returns the same string. -/
theorem digitsBE_natOfDigits (l : List Char) (hne : l ≠ [])
    (hd : ∀ c ∈ l, isDigit c = true) (hh : l.head? ≠ some '0') :
    digitsBE (natOfDigits l) = l := by
  have hvals : ∀ v ∈ (l.map digitVal).reverse, v < 10 := by
    intro v hv
    rw [List.mem_reverse, List.mem_map] at hv
    obtain ⟨c, hc, rfl⟩ := hv
    exact digitVal_lt_ten (hd c hc)
  have hlast : ∀ h : (l.map digitVal).reverse ≠ [],
      ((l.map digitVal).reverse).getLast h ≠ 0 := by
    intro h
    obtain ⟨c0, t, rfl⟩ := List.exists_cons_of_ne_nil hne
    simp only [List.map_cons] at h ⊢
    have e2 := List.getLast?_eq_getLast _ h
    rw [List.getLast?_reverse] at e2
    simp only [List.head?_cons] at e2
    have e3 := Option.some.inj e2
    rw [← e3]
    apply digitVal_ne_zero (hd c0 (List.mem_cons_self c0 t))
    intro h0
    exact hh (by simp [h0])
  have hdig : Nat.digits 10 (natOfDigits l) = (l.map digitVal).reverse := by
    rw [natOfDigits_eq_ofDigits]
    exact Nat.digits_ofDigits 10 (by norm_num) _ hvals hlast
  unfold digitsBE
  rw [digitsRev_eq_digits, hdig, List.reverse_reverse, List.map_map]
  have hcomp : ∀ c ∈ l, (digitChar ∘ digitVal) c = id c := fun c hc =>
    digitChar_digitVal (hd c hc)
  rw [List.map_congr_left hcomp, List.map_id]

/-- A digit string with a nonzero leading digit denotes a positive
number. -/
theorem natOfDigits_pos (c : Char) (l : List Char)
    (hc : isDigit c = true) (h0 : c ≠ '0') :
    0 < natOfDigits (c :: l) := by
  rw [natOfDigits_cons]
  have h1 : digitVal c ≠ 0 := digitVal_ne_zero hc h0
  have h2 : 0 < 10 ^ l.length := pow_pos (by norm_num) _
  have : 1 ≤ digitVal c := Nat.one_le_iff_ne_zero.2 h1
  calc 0 < 1 * 10 ^ l.length := by omega
    _ ≤ digitVal c * 10 ^ l.length := Nat.mul_le_mul_right _ this
    _ ≤ digitVal c * 10 ^ l.length + natOfDigits l := Nat.le_add_right _ _

/-- `stripZeros` with fuel equal to the number of appended zeros strips
all of them. -/
theorem stripZeros_exact : ∀ (j n : Nat), stripZeros (n * 10 ^ j) j = (n, j) := by
  intro j
  induction j with
  | zero => intro n; simp [stripZeros]
  | succ j ih =>
      intro n
      have hmod : n * 10 ^ (j + 1) % 10 = 0 := by
        have : n * 10 ^ (j + 1) = n * 10 ^ j * 10 := by ring
        rw [this]
        simp [Nat.mul_mod_left]
      have hdiv : n * 10 ^ (j + 1) / 10 = n * 10 ^ j := by
        have : n * 10 ^ (j + 1) = n * 10 ^ j * 10 := by ring
        rw [this]
        exact Nat.mul_div_cancel _ (by norm_num)
      simp only [stripZeros, if_pos hmod, hdiv, ih]

/-- With surplus fuel, stripping stops at the last nonzero digit. -/
theorem stripZeros_extra : ∀ (j f n : Nat), n % 10 ≠ 0 →
    stripZeros (n * 10 ^ j) (j + f) = (n, j) := by
  intro j
  induction j with
  | zero =>
      intro f n hn
      cases f with
      | zero => simp [stripZeros]
      | succ f => simp [stripZeros, if_neg, hn]
  | succ j ih =>
      intro f n hn
      have hmod : n * 10 ^ (j + 1) % 10 = 0 := by
        have : n * 10 ^ (j + 1) = n * 10 ^ j * 10 := by ring
        rw [this]
        simp [Nat.mul_mod_left]
      have hdiv : n * 10 ^ (j + 1) / 10 = n * 10 ^ j := by
        have : n * 10 ^ (j + 1) = n * 10 ^ j * 10 := by ring
        rw [this]
        exact Nat.mul_div_cancel _ (by norm_num)
      have harr : j + 1 + f = (j + f) + 1 := by omega
      rw [harr]
      simp only [stripZeros, if_pos hmod, hdiv, ih f n hn]

/-- Leading zero characters do not change the denoted number. -/
theorem natOfDigits_replicate_zero (z : Nat) (l : List Char) :
    natOfDigits (List.replicate z '0' ++ l) = natOfDigits l := by
  induction z with
  | zero => simp
  | succ z ih =>
      rw [List.replicate_succ, List.cons_append, natOfDigits_cons]
      simpa [digitVal] using ih

/-- `takeWhile` over a run of satisfying characters followed by a failing
one. -/
theorem takeWhile_all_append (p : Char → Bool) (l1 l2 : List Char) (x : Char)
    (h1 : ∀ c ∈ l1, p c = true) (hx : p x = false) :
    (l1 ++ x :: l2).takeWhile p = l1 := by
  induction l1 with
  | nil => simp [List.takeWhile, hx]
  | cons c t ih =>
      have hc : p c = true := h1 c (List.mem_cons_self c t)
      rw [List.cons_append, List.takeWhile_cons_of_pos hc,
        ih (fun a ha => h1 a (List.mem_cons_of_mem c ha))]

/-- `dropWhile` over the same split. -/
theorem dropWhile_all_append (p : Char → Bool) (l1 l2 : List Char) (x : Char)
    (h1 : ∀ c ∈ l1, p c = true) (hx : p x = false) :
    (l1 ++ x :: l2).dropWhile p = x :: l2 := by
  induction l1 with
  | nil => simp [List.dropWhile, hx]
  | cons c t ih =>
      have hc : p c = true := h1 c (List.mem_cons_self c t)
      rw [List.cons_append, List.dropWhile_cons_of_pos hc,
        ih (fun a ha => h1 a (List.mem_cons_of_mem c ha))]

/-- `takeWhile` of an all-satisfying list. -/
theorem takeWhile_all (p : Char → Bool) (l : List Char)
    (h : ∀ c ∈ l, p c = true) : l.takeWhile p = l := by
  induction l with
  | nil => rfl
  | cons c t ih =>
      rw [List.takeWhile_cons_of_pos (h c (List.mem_cons_self c t)),
        ih (fun a ha => h a (List.mem_cons_of_mem c ha))]

/-- `dropWhile` of an all-satisfying list. -/
theorem dropWhile_all (p : Char → Bool) (l : List Char)
    (h : ∀ c ∈ l, p c = true) : l.dropWhile p = [] := by
  induction l with
  | nil => rfl
  | cons c t ih =>
      rw [List.dropWhile_cons_of_pos (h c (List.mem_cons_self c t)),
        ih (fun a ha => h a (List.mem_cons_of_mem c ha))]

/-- The head of a `dropWhile` residue fails the predicate. -/
theorem head_dropWhile_not (p : Char → Bool) :
    ∀ (l : List Char) (c : Char) (t : List Char),
      l.dropWhile p = c :: t → p c = false := by
  intro l
  induction l with
  | nil => intro c t h; simp [List.dropWhile] at h
  | cons a l ih =>
      intro c t h
      by_cases hp : p a = true
      · rw [List.dropWhile_cons_of_pos hp] at h
        exact ih c t h
      · rw [List.dropWhile_cons_of_neg (by simpa using hp)] at h
        cases h
        simpa using hp

/-- Sign stripping leaves a digit-headed string untouched. -/
theorem splitSign_digit (c : Char) (r : List Char) (h : isDigit c = true) :
    splitSign (c :: r) = (false, c :: r) := by
  rcases digit_mem_cases h with rfl|rfl|rfl|rfl|rfl|rfl|rfl|rfl|rfl|rfl <;> rfl

/-- `Decimal` literal parsing of a canonical `I.F` string. -/
theorem splitLit_int_frac (ip fp : List Char) (hip : ip ≠ [])
    (hipd : ∀ c ∈ ip, isDigit c = true) (hfpd : ∀ c ∈ fp, isDigit c = true) :
    splitLit (ip ++ '.' :: fp) = some ⟨false, ip, fp⟩ := by
  obtain ⟨c0, t, rfl⟩ := List.exists_cons_of_ne_nil hip
  unfold splitLit
  rw [List.cons_append, splitSign_digit _ _ (hipd c0 (List.mem_cons_self c0 t))]
  simp only [← List.cons_append]
  rw [takeWhile_all_append isDigit (c0 :: t) fp '.' hipd (by decide),
    dropWhile_all_append isDigit (c0 :: t) fp '.' hipd (by decide)]
  have hall : fp.all isDigit = true := List.all_eq_true.2 hfpd
  simp [hall]

/-- `Decimal` literal parsing of a canonical integer string. -/
theorem splitLit_int (ip : List Char) (hip : ip ≠ [])
    (hipd : ∀ c ∈ ip, isDigit c = true) :
    splitLit ip = some ⟨false, ip, []⟩ := by
  obtain ⟨c0, t, rfl⟩ := List.exists_cons_of_ne_nil hip
  unfold splitLit
  rw [splitSign_digit _ _ (hipd c0 (List.mem_cons_self c0 t))]
  simp only []
  rw [takeWhile_all isDigit (c0 :: t) hipd, dropWhile_all isDigit (c0 :: t) hipd]
  simp

/-- `format_amount` on a natural-number cast delegates to `formatNat`. -/
theorem format_amount_natCast (m d : Nat) :
    format_amount (m : Int) d = formatNat m d := by
  unfold format_amount
  rw [if_neg (not_lt.2 (Int.natCast_nonneg m))]
  simp

/-- **C2** (counterexample).  The round-trip law fails on the valid
decimal string `"1.50"` with 6 decimals (well within 6 fractional
digits): `to_raw` gives 1500000, but `to_human` prints the exact quotient
in reduced form, `"1.5"`, not `"1.50"`. -/
theorem c2_roundtrip_fails_trailing_zero :
    parse_amount "1.50".toList 6 = some 1500000 ∧
    format_amount 1500000 6 = "1.5".toList ∧
    "1.5".toList ≠ "1.50".toList := by
  refine ⟨by decide, by decide, by decide⟩

/-- **C2** (amended).  The round-trip `to_human(to_raw(s, d), d) = s`
holds exactly on canonical strings: `s = I` or `s = I.F` with `I` a digit
string without leading zero (or exactly `"0"`), `F` a nonempty digit
string with at most `d` digits and no trailing zero, at most 5 leading
zeros in `F` when `I = "0"` (otherwise `Decimal`'s `str` switches to
scientific notation, e.g. `0.0000001 ↦ "1E-7"`), and few enough digits
that the 28-significant-digit decimal context never rounds.  Outside this
canonical form the law fails (trailing zeros are reduced, `"+"` signs and
leading zeros are not reproduced). -/
theorem c2_roundtrip_canonical (ip fp : List Char) (d : Nat)
    (hip : ip ≠ [])
    (hipd : ∀ c ∈ ip, isDigit c = true)
    (hfpd : ∀ c ∈ fp, isDigit c = true)
    (hlead : ip.head? = some '0' → ip = ['0'])
    (htrail : fp.getLast? ≠ some '0')
    (hflen : fp.length ≤ d)
    (hzeros : ip = ['0'] → (fp.takeWhile (· == '0')).length ≤ 5)
    (hprec : ip.length + fp.length + d ≤ 28) :
    (parse_amount (if fp = [] then ip else ip ++ '.' :: fp) d).map
        (fun r => format_amount r d) =
      some (if fp = [] then ip else ip ++ '.' :: fp) := by
  by_cases hfp : fp = []
  · -- integer-only canonical string
    subst hfp
    rw [if_pos rfl]
    unfold parse_amount
    rw [splitLit_int ip hip hipd]
    simp only [Option.map_some', coeff, scale, List.append_nil,
      List.length_nil, pow_zero, Nat.div_one, Bool.false_eq_true, if_false]
    rw [format_amount_natCast]
    by_cases hip0 : ip = ['0']
    · subst hip0
      simp [formatNat, natOfDigits, digitVal]
    · obtain ⟨c0, t, rfl⟩ := List.exists_cons_of_ne_nil hip
      have hc0 : isDigit c0 = true := hipd c0 (List.mem_cons_self c0 t)
      have hc0ne : c0 ≠ '0' := by
        intro h
        exact hip0 (hlead (by simp [h]))
      have hn : 0 < natOfDigits (c0 :: t) := natOfDigits_pos c0 t hc0 hc0ne
      have hraw : natOfDigits (c0 :: t) * 10 ^ d ≠ 0 := by
        have := pow_pos (by norm_num : (0:ℕ) < 10) d
        positivity
      unfold formatNat
      rw [if_neg hraw, stripZeros_exact d (natOfDigits (c0 :: t))]
      simp only [Nat.sub_self]
      unfold toSciString
      rw [if_pos rfl]
      exact congrArg some (digitsBE_natOfDigits (c0 :: t) (by simp) hipd
        (by simpa using hc0ne))
  · -- string with a fractional part
    rw [if_neg hfp]
    unfold parse_amount
    rw [splitLit_int_frac ip fp hip hipd hfpd]
    simp only [Option.map_some', coeff, scale, Bool.false_eq_true, if_false]
    rw [format_amount_natCast]
    set n := natOfDigits (ip ++ fp) with hn_def
    set f := fp.length with hf_def
    have hcl_mem : fp.getLast hfp ∈ fp := List.getLast_mem hfp
    have hcl : isDigit (fp.getLast hfp) = true := hfpd _ hcl_mem
    have hcl0 : fp.getLast hfp ≠ '0' := by
      intro h
      rw [List.getLast?_eq_getLast fp hfp, h] at htrail
      exact htrail rfl
    have hsplit : ip ++ fp = (ip ++ fp.dropLast) ++ [fp.getLast hfp] := by
      rw [List.append_assoc, List.dropLast_append_getLast hfp]
    have hmod : n % 10 = digitVal (fp.getLast hfp) := by
      rw [hn_def, hsplit]
      exact natOfDigits_append_singleton_mod _ _ hcl
    have hmod0 : n % 10 ≠ 0 := by
      rw [hmod]
      exact digitVal_ne_zero hcl hcl0
    have hn0 : n ≠ 0 := by
      intro h
      rw [h] at hmod0
      exact hmod0 (Nat.zero_mod 10)
    have hmag : n * 10 ^ d / 10 ^ f = n * 10 ^ (d - f) := by
      have hsplitpow : (10:ℕ) ^ d = 10 ^ (d - f) * 10 ^ f := by
        rw [← pow_add]
        congr 1
        omega
      rw [hsplitpow, ← mul_assoc]
      exact Nat.mul_div_cancel _ (pow_pos (by norm_num) f)
    rw [hmag]
    have hraw0 : n * 10 ^ (d - f) ≠ 0 := by
      have := pow_pos (by norm_num : (0:ℕ) < 10) (d - f)
      have := Nat.pos_of_ne_zero hn0
      positivity
    unfold formatNat
    rw [if_neg hraw0]
    have hstrip : stripZeros (n * 10 ^ (d - f)) d = (n, d - f) := by
      have h1 := stripZeros_extra (d - f) f n hmod0
      rw [(by omega : (d - f) + f = d)] at h1
      exact h1
    rw [hstrip]
    have hENeg : d - (d - f) = f := by omega
    simp only [hENeg]
    have hfpos : f ≠ 0 := by
      rw [hf_def]
      simpa using hfp
    by_cases hip0 : ip = ['0']
    · -- `0.F`: may need leading-zero padding, adjusted exponent ≥ -6
      subst hip0
      have hnfp : n = natOfDigits fp := by
        rw [hn_def]
        have : (['0'] : List Char) = List.replicate 1 '0' := rfl
        rw [this, natOfDigits_replicate_zero]
      set tw := fp.takeWhile (· == '0') with htw_def
      set dw := fp.dropWhile (· == '0') with hdw_def
      have htwdw : tw ++ dw = fp := List.takeWhile_append_dropWhile _ _
      have hrep : tw = List.replicate tw.length '0' := by
        refine List.eq_replicate_iff.2 ⟨rfl, ?_⟩
        intro b hb
        have := List.mem_takeWhile_imp hb
        simpa using this
      have hndw : n = natOfDigits dw := by
        rw [hnfp, ← htwdw, hrep, natOfDigits_replicate_zero]
      have hdwne : dw ≠ [] := by
        intro h
        rw [h, List.append_nil] at htwdw
        have : fp.getLast hfp ∈ tw := by rw [htwdw]; exact hcl_mem
        rw [hrep] at this
        exact hcl0 (List.eq_of_mem_replicate this)
      obtain ⟨c1, t1, hdw1⟩ := List.exists_cons_of_ne_nil hdwne
      have hc1 : (c1 == '0') = false := head_dropWhile_not _ fp c1 t1 hdw1
      have hc1ne : c1 ≠ '0' := by simpa using hc1
      have hdwd : ∀ c ∈ dw, isDigit c = true := by
        intro c hc
        exact hfpd c ((List.dropWhile_sublist _).mem hc)
      have hds : digitsBE n = dw := by
        rw [hndw]
        exact digitsBE_natOfDigits dw hdwne hdwd (by rw [hdw1]; simpa using hc1ne)
      have hlen_fp : tw.length + dw.length = f := by
        rw [hf_def, ← htwdw, List.length_append]
      have htw5 : tw.length ≤ 5 := hzeros rfl
      unfold toSciString
      rw [hds, if_neg hfpos,
        if_neg (by omega : ¬ f < dw.length),
        if_pos (by omega : f ≤ dw.length + 5)]
      have hpad : f - dw.length = tw.length := by omega
      rw [hpad]
      have : List.replicate tw.length '0' ++ dw = fp := by rw [← hrep, htwdw]
      rw [this]
      rfl
    · -- `I.F` with a positive integer part: the dot is re-inserted
      obtain ⟨c0, t, rfl⟩ := List.exists_cons_of_ne_nil hip
      have hc0ne : c0 ≠ '0' := by
        intro h
        exact hip0 (hlead (by simp [h]))
      have hds : digitsBE n = (c0 :: t) ++ fp := by
        rw [hn_def]
        refine digitsBE_natOfDigits _ (by simp) ?_ (by simpa using hc0ne)
        intro c hc
        rcases List.mem_append.1 hc with h | h
        · exact hipd c h
        · exact hfpd c h
      have hlen : ((c0 :: t) ++ fp).length = (c0 :: t).length + f := by
        rw [List.length_append]
      unfold toSciString
      rw [hds, if_neg hfpos,
        if_pos (by rw [hlen]; simp : f < ((c0 :: t) ++ fp).length)]
      have htake : ((c0 :: t) ++ fp).length - f = (c0 :: t).length := by
        rw [hlen]
        omega
      rw [htake, List.take_left, List.drop_left]

/-- **C2** witness: the amended round-trip theorem at `"1.5"` with 6
decimals. -/
theorem c2_roundtrip_canonical_witness :
    (parse_amount (if (['5'] : List Char) = [] then ['1']
        else ['1'] ++ '.' :: ['5']) 6).map (fun r => format_amount r 6) =
      some (if (['5'] : List Char) = [] then ['1'] else ['1'] ++ '.' :: ['5']) :=
  c2_roundtrip_canonical ['1'] ['5'] 6 (by decide) (by decide) (by decide)
    (by decide) (by decide) (by decide) (by decide) (by decide)

end Kolynia
